import Mathlib

/-!
A shallow embedding of `src/secparse/db.py` (class `EdgarDatabase` and its
four ORM tables) together with proofs about the behaviour of its queries
and of the filing-data ingestion routine `set_filing_data`.

Modelling conventions:
* spreadsheet cells are a sum type `Cell` (string cell, numeric cell, or a
  None-like cell); Python truthiness of a cell is `Cell.truthy`;
* an ORM session is a pair of database states: the last committed state and
  the pending (in-transaction) state; `rollback` discards the pending state,
  `commit` publishes it.  The sessionmaker is configured with the default
  `autoflush=True`, so staged inserts are flushed — and primary-key
  uniqueness is checked — at the `session.query(...)` call that follows
  `session.add_all` inside `set_filing_data`; a violation there raises
  `IntegrityError`, which the surrounding `try` catches;
* exceptions that a routine catches are modelled with `Option`; `sys.exit`
  is modelled as the `none` result of `_select_distinct_ciks`;
* machine floats never matter here: `filing_value` is stored as the raw
  spreadsheet cell, exactly as the code passes `row[column_num]` through.
-/

namespace Secparse

/-- A spreadsheet cell as handed to `set_filing_data`: a string, a number,
or a None-like value.  Only `.str` cells respond to `.replace` (anything
else raises `AttributeError` inside `prep_date`). -/
inductive Cell where
  | str : String → Cell
  | num : Int → Cell
  | none_ : Cell
deriving DecidableEq, Repr

/-- Python truthiness of a cell: empty string, zero and None are falsy. -/
def Cell.truthy : Cell → Bool
  | .str s => !s.isEmpty
  | .num n => n != 0
  | .none_ => false

/-- Row of table `SicInfo` (`sic_code` primary key). -/
structure SicInfo where
  sic_code : String
  ad_office : String
  industry_title : String
deriving DecidableEq, Repr

/-- Row of table `CompanyInfo` (`company_cik` primary key). -/
structure CompanyInfo where
  company_cik : String
  company_name : String
  company_ticker : String
  company_sic : String
  company_state : String
  company_info_attempted : Bool
deriving DecidableEq, Repr

/-- Row of table `FilingInfo` (`filing_accession` primary key). -/
structure FilingInfo where
  company_cik : String
  filing_accession : String
  form : String
  period : Int
  filed : Int
  filing_url : String
  excel_url : String
  excel_path : String
  parsed_data : Bool
  parsing_attempted : Bool
deriving DecidableEq, Repr

/-- Row of table `FilingData` (composite primary key
`(filing_accession, filing_term, value_period)`).  `filing_value` keeps the
raw spreadsheet cell that the code passes as `row[column_num]`;
`value_period` keeps the `strftime('%Y%m%d')` string passed as `period`. -/
structure FilingData where
  filing_accession : String
  filing_term : Cell
  filing_type : String
  filing_value : Cell
  value_period : String
deriving DecidableEq, Repr

/-- The state of the sqlite database: the contents of the four tables. -/
structure DBState where
  sics : List SicInfo
  companies : List CompanyInfo
  filings : List FilingInfo
  filingData : List FilingData
deriving DecidableEq, Repr

/-- An ORM session: the last committed database state and the pending
in-transaction view (committed rows plus flushed-but-uncommitted changes). -/
structure Session where
  committed : DBState
  pending : DBState
deriving DecidableEq, Repr

/-- `session.rollback()`: discard the pending changes. -/
def Session.rollback (s : Session) : Session := ⟨s.committed, s.committed⟩

/-- `session.commit()`: publish the pending state. -/
def Session.commit (s : Session) : Session := ⟨s.pending, s.pending⟩

/-- `make_session` on a database state. -/
def Session.make (db : DBState) : Session := ⟨db, db⟩

/-- `close_session`: commits the pending writes (then closes). -/
def Session.close_session (s : Session) : Session := s.commit

/-- `insert_objects` restricted to `CompanyInfo` rows: `session.add_all`
stages the rows in the pending state without committing. -/
def Session.add_companies (s : Session) (cs : List CompanyInfo) : Session :=
  { s with pending := { s.pending with companies := s.pending.companies ++ cs } }

/-- `insert_objects` restricted to `FilingInfo` rows. -/
def Session.add_filings (s : Session) (fs : List FilingInfo) : Session :=
  { s with pending := { s.pending with filings := s.pending.filings ++ fs } }

/-! ## Lookup queries -/

/-- `session.query(FilingInfo, CompanyInfo).join(CompanyInfo)`: all
(Filing, Company) pairs related through `FilingInfo.company_cik`. -/
def joinFilingsCompanies (db : DBState) : List (FilingInfo × CompanyInfo) :=
  db.filings.flatMap fun f =>
    (db.companies.filter fun c => f.company_cik = c.company_cik).map fun c => (f, c)

/-- One unchunked filtered join query:
`query(FilingInfo, CompanyInfo).join(CompanyInfo).filter(query_col.in_(terms)).all()`. -/
def filterJoinQuery (db : DBState) (col : FilingInfo × CompanyInfo → String)
    (terms : List String) : List (FilingInfo × CompanyInfo) :=
  (joinFilingsCompanies db).filter fun fc => decide (col fc ∈ terms)

/-- Fuel-driven worker computing
`[terms[i:i+995] for i in range(0, len(terms), 995)]`; the fuel is always at
least the length of the list, so the `0, _ :: _` case is never reached. -/
def chunksGo : Nat → List α → List (List α)
  | _, [] => []
  | 0, l => [l]
  | fuel + 1, l@(_ :: _) => l.take 995 :: chunksGo fuel (l.drop 995)

/-- The chunks `[terms[i:i+995] for i in range(0, len(terms), 995)]`. -/
def chunksOf995 (l : List α) : List (List α) := chunksGo l.length l

/-- Modelled from the spec: `flatten` is imported from
`secparse.utilities`, a module of this repository that is not under `src/`;
per the spec the per-chunk results are "concatenated in chunk order". -/
def flatten (l : List (List α)) : List α := l.flatten

/-- `_select_filings`: a single query for fewer than 999 terms, otherwise
chunks of 995 whose results are concatenated. -/
def selectFilings (db : DBState) (col : FilingInfo × CompanyInfo → String)
    (query_terms : List String) : List (FilingInfo × CompanyInfo) :=
  if query_terms.length < 999 then
    filterJoinQuery db col query_terms
  else
    flatten ((chunksOf995 query_terms).map fun chunk => filterJoinQuery db col chunk)

/-! ## SQL `ilike` and the distinct-cik lookups -/

/-- Fuel-driven matcher for the SQL (I)LIKE operator: `%` matches any
sequence of characters, `_` matches any single character, and a plain
character matches case-insensitively.  First argument of the worker is
fuel, then the pattern, then the text; fuel at least
`pattern.length + text.length` makes the matcher total. -/
def likeGo : Nat → List Char → List Char → Bool
  | 0, p, t => p.isEmpty && t.isEmpty
  | _ + 1, [], t => t.isEmpty
  | fuel + 1, p :: ps, t =>
    if p = '%' then
      likeGo fuel ps t ||
        (match t with
         | [] => false
         | _ :: ts => likeGo fuel (p :: ps) ts)
    else
      match t with
      | [] => false
      | c :: cs => (p = '_' || p.toLower = c.toLower) && likeGo fuel ps cs

/-- SQL (I)LIKE on character lists: pattern first, text second. -/
def likeM (p t : List Char) : Bool := likeGo (p.length + t.length) p t

/-- `column.ilike(pattern)` applied to the column value of one row. -/
def likeS (value pattern : String) : Bool := likeM pattern.data value.data

/-- `_select_distinct_ciks`: select `company_cik` of the companies whose
column matches the term via `ilike`; an empty result prints and calls
`sys.exit(0)` — modelled as `none`. -/
def selectDistinctCiks (db : DBState) (col : CompanyInfo → String)
    (query_term : String) : Option (List String) :=
  let res := ((db.companies.filter fun c => likeS (col c) query_term).map
    fun c => c.company_cik)
  if res.isEmpty then none else some res

/-- `select_ciks_by_state`. -/
def select_ciks_by_state (db : DBState) (state_name : String) : Option (List String) :=
  selectDistinctCiks db (fun c => c.company_state) state_name

/-- `select_ciks_by_sic`. -/
def select_ciks_by_sic (db : DBState) (sic_code : String) : Option (List String) :=
  selectDistinctCiks db (fun c => c.company_sic) sic_code

/-- `select_ciks_by_ticker`. -/
def select_ciks_by_ticker (db : DBState) (company_ticker : String) : Option (List String) :=
  selectDistinctCiks db (fun c => c.company_ticker) company_ticker

/-- `select_ciks_by_name`: the term is wrapped in `%` wildcards. -/
def select_ciks_by_name (db : DBState) (company_name : String) : Option (List String) :=
  selectDistinctCiks db (fun c => c.company_name) ("%" ++ company_name ++ "%")

/-! ## `set_filing_data` -/

/-- The stripped currency annotation `USD ($)` as a character list. -/
def usdPattern : List Char := 'U' :: 'S' :: 'D' :: ' ' :: '(' :: '$' :: ')' :: []

/-- Fuel-driven worker for Python's `str.replace('USD ($)', '')`: removes
every occurrence of the seven characters `USD ($)`; fuel at least the
length of the list makes the `0, l` case unreachable. -/
def stripGo : Nat → List Char → List Char
  | _, [] => []
  | 0, l => l
  | fuel + 1, c :: cs =>
    if usdPattern.isPrefixOf (c :: cs) then stripGo fuel ((c :: cs).drop 7)
    else c :: stripGo fuel cs

/-- Python's `str.replace('USD ($)', '')` on a character list. -/
def stripUSD (l : List Char) : List Char := stripGo l.length l

/-- The inner helper `prep_date` of `set_filing_data`: only string cells
respond to `.replace` (other cells raise `AttributeError`, which the helper
turns into the return value `False`, modelled as `none`). -/
def prep_date : Cell → Option String
  | .str s => some (String.mk (stripUSD s.data))
  | _ => none

/-- Separator characters recognised by the date-token splitter. -/
def isSep (c : Char) : Bool := c = ' ' || c = ',' || c = '.'

/-- Splits a character list into maximal runs of non-separator characters;
the second argument accumulates the current (reversed) token. -/
def tokensAux : List Char → List Char → List (List Char)
  | [], cur => if cur.isEmpty then [] else [cur.reverse]
  | c :: cs, cur =>
    if isSep c then
      if cur.isEmpty then tokensAux cs [] else cur.reverse :: tokensAux cs []
    else
      tokensAux cs (c :: cur)

/-- Month names and their numbers, as matched (case-insensitively) by the
date parser. -/
def monthTable : List (List Char × Nat) :=
  [("jan".data, 1), ("january".data, 1), ("feb".data, 2), ("february".data, 2),
   ("mar".data, 3), ("march".data, 3), ("apr".data, 4), ("april".data, 4),
   ("may".data, 5), ("jun".data, 6), ("june".data, 6), ("jul".data, 7),
   ("july".data, 7), ("aug".data, 8), ("august".data, 8), ("sep".data, 9),
   ("september".data, 9), ("oct".data, 10), ("october".data, 10),
   ("nov".data, 11), ("november".data, 11), ("dec".data, 12), ("december".data, 12)]

/-- Month number of a token, matched case-insensitively. -/
def monthOfToken (t : List Char) : Option Nat :=
  monthTable.lookup (t.map Char.toLower)

/-- Numeric value of an all-digit token. -/
def digitsVal (t : List Char) : Option Nat :=
  if t.isEmpty || !(t.all Char.isDigit) then none
  else some (t.foldl (fun acc c => 10 * acc + (c.toNat - 48)) 0)

/-- Modelled from the library: `dateutil.parser.parse`, restricted to the
`<month name> <day>, <year>` shape that the ingested spreadsheet headers
take (e.g. `"Dec. 31, 2020"`); every other input is a parse failure
(`dateutil` raises `ValueError`), modelled as `none`.  The result is
`(year, month, day)`. -/
def dateutil_parse (s : String) : Option (Nat × Nat × Nat) :=
  match tokensAux s.data [] with
  | [mt, dayt, yt] =>
    match monthOfToken mt, digitsVal dayt, digitsVal yt with
    | some m, some d, some y =>
      if 1 ≤ d ∧ d ≤ 31 ∧ yt.length = 4 then some (y, m, d) else none
    | _, _, _ => none
  | _ => none

/-- Two-digit zero-padded decimal representation. -/
def pad2 (n : Nat) : String := if n < 10 then "0" ++ toString n else toString n

/-- Four-digit zero-padded decimal representation. -/
def pad4 (n : Nat) : String :=
  if n < 10 then "000" ++ toString n
  else if n < 100 then "00" ++ toString n
  else if n < 1000 then "0" ++ toString n
  else toString n

/-- `dt.datetime.strftime(date, '%Y%m%d')` on a parsed `(year, month, day)`. -/
def formatYYYYMMDD (ymd : Nat × Nat × Nat) : String :=
  pad4 ymd.1 ++ pad2 ymd.2.1 ++ pad2 ymd.2.2

/-- `data.shape[1]`: number of columns of the (rectangular) 2-D array. -/
def shape1 (data : List (List Cell)) : Nat := (data.headD []).length

/-- `data[0, column_num]`: the header cell of one column. -/
def headerCell (data : List (List Cell)) (column_num : Nat) : Cell :=
  (data.headD []).getD column_num Cell.none_

/-- `row[-1]`: the trailing cell of a data row. -/
def lastCell (row : List Cell) : Cell := row.getLastD Cell.none_

/-- The `rows_to_insert` list built for one column: every data row below
the header whose trailing cell is truthy contributes one `FilingData`
record, whose value is the row's cell at the current column index. -/
def rowsToInsert (data : List (List Cell)) (accession : String)
    (column_num : Nat) (period : String) (filing_type : String) : List FilingData :=
  (data.drop 1).filterMap fun row =>
    if (lastCell row).truthy then
      some { filing_accession := accession
             filing_term := row.getD 0 Cell.none_
             filing_type := filing_type
             filing_value := row.getD column_num Cell.none_
             value_period := period }
    else
      none

/-- The composite primary key of a `FilingData` row. -/
def fdKey (r : FilingData) : String × Cell × String :=
  (r.filing_accession, r.filing_term, r.value_period)

/-- Autoflush of the staged `rows_to_insert` at the `session.query` call:
each row is inserted in turn into the pending state; a duplicate composite
primary key raises `IntegrityError`, modelled as `none`. -/
def flushRows (db : DBState) : List FilingData → Option DBState
  | [] => some db
  | r :: rs =>
    if db.filingData.any fun x => fdKey x = fdKey r then none
    else flushRows { db with filingData := db.filingData ++ [r] } rs

/-- The loop `for c in session.query(FilingInfo).filter(filing_accession ==
accession).all(): c.parsed_data = True`, acting on the pending state. -/
def setParsedFlag (db : DBState) (accession : String) : DBState :=
  { db with
    filings := db.filings.map fun f =>
      if f.filing_accession = accession then { f with parsed_data := true } else f }

/-- The column loop of `set_filing_data` over the remaining column indices.
Per column: clean the header (`prep_date`); a non-string or empty cleaned
header returns `False` with no rollback; a cleaned header that
`dateutil.parser.parse` rejects rolls the session back and returns `False`;
otherwise the constructed rows are staged and flushed — an integrity
violation rolls back and returns `False` — the parsed flag is set for the
accession, and the session commits before the next column. -/
def processColumns (s : Session) (accession : String) (data : List (List Cell))
    (filing_type : String) : List Nat → Bool × Session
  | [] => (true, s)
  | column_num :: rest =>
    match prep_date (headerCell data column_num) with
    | none => (false, s)
    | some cleaned =>
      if cleaned = "" then (false, s)
      else
        match dateutil_parse cleaned with
        | none => (false, s.rollback)
        | some ymd =>
          let period := formatYYYYMMDD ymd
          match flushRows s.pending (rowsToInsert data accession column_num period filing_type) with
          | none => (false, s.rollback)
          | some db1 =>
            let db2 := setParsedFlag db1 accession
            processColumns (Session.commit ⟨s.committed, db2⟩) accession data filing_type rest

/-- `set_filing_data`: iterate `processColumns` over the data columns
`range(1, data.shape[1])`; returns the boolean result and the final
session. -/
def set_filing_data (s : Session) (filing : FilingInfo × CompanyInfo)
    (data : List (List Cell)) (filing_type : String) : Bool × Session :=
  processColumns s filing.1.filing_accession data filing_type
    (List.range' 1 (shape1 data - 1))

/-! ## Helper lemmas -/

theorem chunksGo_flatten : ∀ (fuel : Nat) (l : List α), l.length ≤ fuel →
    (chunksGo fuel l).flatten = l := by
  intro fuel
  induction fuel with
  | zero =>
    intro l hl
    match l, hl with
    | [], _ => rfl
  | succ fuel ih =>
    intro l hl
    match l with
    | [] => rfl
    | c :: cs =>
      have hlen : ((c :: cs).drop 995).length ≤ fuel := by
        simp only [List.length_drop, List.length_cons]
        simp only [List.length_cons] at hl
        omega
      simp only [chunksGo, List.flatten_cons, ih _ hlen, List.take_append_drop]

theorem chunksOf995_flatten (l : List α) : (chunksOf995 l).flatten = l :=
  chunksGo_flatten l.length l le_rfl

theorem chunksGo_sizes : ∀ (fuel : Nat) (l : List α), l.length ≤ fuel →
    ∀ ch ∈ chunksGo fuel l, ch.length ≤ 995 := by
  intro fuel
  induction fuel with
  | zero =>
    intro l hl ch hch
    match l, hl with
    | [], _ => simp [chunksGo] at hch
  | succ fuel ih =>
    intro l hl ch hch
    match l with
    | [] => simp [chunksGo] at hch
    | c :: cs =>
      simp only [chunksGo, List.mem_cons] at hch
      rcases hch with h | h
      · subst h
        simp only [List.length_take]
        omega
      · have hlen : ((c :: cs).drop 995).length ≤ fuel := by
          simp only [List.length_drop, List.length_cons]
          simp only [List.length_cons] at hl
          omega
        exact ih _ hlen ch h

theorem chunksOf995_sizes (l : List α) : ∀ ch ∈ chunksOf995 l, ch.length ≤ 995 :=
  chunksGo_sizes l.length l le_rfl

theorem flushRows_eq : ∀ (rows : List FilingData) (db db1 : DBState),
    flushRows db rows = some db1 →
    db1 = { db with filingData := db.filingData ++ rows } := by
  intro rows
  induction rows with
  | nil =>
    intro db db1 h
    simp only [flushRows, Option.some.injEq] at h
    simp [← h]
  | cons r rs ih =>
    intro db db1 h
    simp only [flushRows] at h
    split at h
    · exact absurd h (by simp)
    · have := ih _ _ h
      simp only [this, List.append_assoc, List.singleton_append]

theorem filterMap_if {α β : Type} (p : α → Bool) (f : α → β) :
    ∀ (l : List α),
      (l.filterMap fun a => if p a then some (f a) else none) = (l.filter p).map f := by
  intro l
  induction l with
  | nil => rfl
  | cons a l ih =>
    by_cases h : p a = true
    · simp [List.filterMap_cons, List.filter_cons, h, ih]
    · simp only [Bool.not_eq_true] at h
      simp [List.filterMap_cons, List.filter_cons, h, ih]

theorem bool_ext (a b : Bool) (h : a = true ↔ b = true) : a = b := by
  cases a <;> cases b <;> simp_all

/-! ## Semantics of the LIKE matcher -/

/-- A pattern without SQL wildcard characters. -/
def noWild (p : List Char) : Bool := p.all fun c => !(c = '%' || c = '_')

theorem likeGo_eq_of_le : ∀ (f₁ f₂ : Nat) (p t : List Char),
    p.length + t.length ≤ f₁ → p.length + t.length ≤ f₂ →
    likeGo f₁ p t = likeGo f₂ p t := by
  intro f₁
  induction f₁ with
  | zero =>
    intro f₂ p t h₁ _
    cases p with
    | cons q qs => simp only [List.length_cons] at h₁; omega
    | nil =>
      cases t with
      | cons c cs => simp only [List.length_cons] at h₁; omega
      | nil =>
        cases f₂ with
        | zero => rfl
        | succ f₂ => rfl
  | succ f₁ ih =>
    intro f₂ p t h₁ h₂
    match p with
    | [] =>
      cases f₂ with
      | zero =>
        match t, h₂ with
        | [], _ => rfl
      | succ f₂ => rfl
    | p :: ps =>
      cases f₂ with
      | zero =>
        exfalso
        simp only [List.length_cons] at h₂
        omega
      | succ f₂ =>
        simp only [List.length_cons] at h₁ h₂
        simp only [likeGo]
        by_cases hp : p = '%'
        · simp only [if_pos hp]
          have hA : likeGo f₁ ps t = likeGo f₂ ps t := ih f₂ ps t (by omega) (by omega)
          match t with
          | [] => simp [hA]
          | c :: cs =>
            have hB : likeGo f₁ (p :: ps) cs = likeGo f₂ (p :: ps) cs := by
              apply ih <;> simp only [List.length_cons] <;>
                simp only [List.length_cons] at h₁ h₂ <;> omega
            simp [hA, hB]
        · simp only [if_neg hp]
          match t with
          | [] => rfl
          | c :: cs =>
            have hC : likeGo f₁ ps cs = likeGo f₂ ps cs := by
              apply ih <;> simp only [List.length_cons] at h₁ h₂ ⊢ <;> omega
            simp [hC]

theorem likeGo_eq_likeM (f : Nat) (p t : List Char) (h : p.length + t.length ≤ f) :
    likeGo f p t = likeM p t :=
  likeGo_eq_of_le f (p.length + t.length) p t h le_rfl

theorem likeM_nil (t : List Char) : likeM [] t = t.isEmpty := by
  cases t with
  | nil => rfl
  | cons c cs => rfl

theorem likeM_pct_nil (ps : List Char) : likeM ('%' :: ps) [] = likeM ps [] := by
  have h : likeM ('%' :: ps) [] = likeGo (ps.length + 1) ('%' :: ps) [] := by
    simp [likeM]
  rw [h]
  show (if '%' = '%' then likeGo ps.length ps [] || false else _) = _
  rw [if_pos rfl, Bool.or_false]
  exact likeGo_eq_likeM ps.length ps [] (by simp)

theorem likeM_pct_cons (ps : List Char) (c : Char) (cs : List Char) :
    likeM ('%' :: ps) (c :: cs) = (likeM ps (c :: cs) || likeM ('%' :: ps) cs) := by
  have h : likeM ('%' :: ps) (c :: cs)
      = likeGo (ps.length + 1 + (cs.length + 1)) ('%' :: ps) (c :: cs) := by
    simp [likeM]
  rw [h]
  show (if '%' = '%' then likeGo (ps.length + 1 + cs.length) ps (c :: cs) ||
      likeGo (ps.length + 1 + cs.length) ('%' :: ps) cs else _) = _
  rw [if_pos rfl]
  rw [likeGo_eq_likeM _ ps (c :: cs) (by simp only [List.length_cons]; omega)]
  rw [likeGo_eq_likeM _ ('%' :: ps) cs (by simp only [List.length_cons]; omega)]

theorem likeM_cons_nil (p : Char) (ps : List Char) (hp : p ≠ '%') :
    likeM (p :: ps) [] = false := by
  have h : likeM (p :: ps) [] = likeGo (ps.length + 1) (p :: ps) [] := by
    simp [likeM]
  rw [h]
  show (if p = '%' then _ else false) = false
  rw [if_neg hp]

theorem likeM_cons_cons (p : Char) (ps : List Char) (c : Char) (cs : List Char)
    (hp : p ≠ '%') :
    likeM (p :: ps) (c :: cs)
      = ((p = '_' || p.toLower = c.toLower) && likeM ps cs) := by
  have h : likeM (p :: ps) (c :: cs)
      = likeGo (ps.length + 1 + (cs.length + 1)) (p :: ps) (c :: cs) := by
    simp [likeM]
  rw [h]
  show (if p = '%' then _ else
      ((p = '_' || p.toLower = c.toLower) && likeGo (ps.length + 1 + cs.length) ps cs)) = _
  rw [if_neg hp]
  rw [likeGo_eq_likeM _ ps cs (by omega)]

theorem likeM_noWild : ∀ (p t : List Char), noWild p = true →
    (likeM p t = true ↔ t.map Char.toLower = p.map Char.toLower) := by
  intro p
  induction p with
  | nil =>
    intro t _
    simp [likeM_nil, List.isEmpty_iff, List.map_eq_nil_iff]
  | cons q qs ih =>
    intro t hw
    simp only [noWild, List.all_cons, Bool.and_eq_true, Bool.not_eq_true',
      Bool.or_eq_false_iff, decide_eq_false_iff_not] at hw
    obtain ⟨⟨hq1, hq2⟩, hqs⟩ := hw
    cases t with
    | nil =>
      rw [likeM_cons_nil q qs hq1]
      simp
    | cons c cs =>
      rw [likeM_cons_cons q qs c cs hq1]
      have hqu : (decide (q = '_') : Bool) = false := by
        simp [hq2]
      simp only [hqu, Bool.false_or, Bool.and_eq_true, decide_eq_true_eq,
        List.map_cons, List.cons.injEq]
      rw [ih cs hqs]
      constructor
      · rintro ⟨h1, h2⟩
        exact ⟨h1.symm, h2⟩
      · rintro ⟨h1, h2⟩
        exact ⟨h1.symm, h2⟩

theorem likeM_pct_iff : ∀ (t ps : List Char),
    (likeM ('%' :: ps) t = true ↔ ∃ t₂, t₂ <:+ t ∧ likeM ps t₂ = true) := by
  intro t
  induction t with
  | nil =>
    intro ps
    rw [likeM_pct_nil]
    constructor
    · intro h
      exact ⟨[], List.suffix_rfl, h⟩
    · rintro ⟨t₂, h2, h3⟩
      rw [List.suffix_nil.mp h2] at h3
      exact h3
  | cons c cs ih =>
    intro ps
    rw [likeM_pct_cons]
    simp only [Bool.or_eq_true]
    constructor
    · rintro (h | h)
      · exact ⟨c :: cs, List.suffix_rfl, h⟩
      · obtain ⟨t₂, h2, h3⟩ := (ih ps).mp h
        exact ⟨t₂, h2.trans (List.suffix_cons c cs), h3⟩
    · rintro ⟨t₂, h2, h3⟩
      rcases List.suffix_cons_iff.mp h2 with h | h
      · subst h
        exact Or.inl h3
      · exact Or.inr ((ih ps).mpr ⟨t₂, h, h3⟩)

theorem likeM_tailpct_iff : ∀ (p : List Char), noWild p = true → ∀ (t : List Char),
    (likeM (p ++ ['%']) t = true ↔
      ∃ t₁, t₁ <+: t ∧ t₁.map Char.toLower = p.map Char.toLower) := by
  intro p
  induction p with
  | nil =>
    intro _ t
    constructor
    · intro _
      exact ⟨[], List.nil_prefix, by simp⟩
    · intro _
      simp only [List.nil_append]
      rw [show (['%'] : List Char) = '%' :: [] from rfl, likeM_pct_iff]
      exact ⟨[], List.nil_suffix, by rw [likeM_nil]; rfl⟩
  | cons q qs ih =>
    intro hw t
    simp only [noWild, List.all_cons, Bool.and_eq_true, Bool.not_eq_true',
      Bool.or_eq_false_iff, decide_eq_false_iff_not] at hw
    obtain ⟨⟨hq1, hq2⟩, hqs⟩ := hw
    cases t with
    | nil =>
      rw [List.cons_append, likeM_cons_nil q (qs ++ ['%']) hq1]
      simp
    | cons c cs =>
      rw [List.cons_append, likeM_cons_cons q (qs ++ ['%']) c cs hq1]
      have hqu : (decide (q = '_') : Bool) = false := by
        simp [hq2]
      simp only [hqu, Bool.false_or, Bool.and_eq_true, decide_eq_true_eq]
      rw [ih hqs cs]
      constructor
      · rintro ⟨h1, t₁, ht1, ht2⟩
        exact ⟨c :: t₁, List.cons_prefix_cons.mpr ⟨rfl, ht1⟩, by
          simp only [List.map_cons, List.cons.injEq]
          exact ⟨h1.symm, ht2⟩⟩
      · rintro ⟨t₁, ht1, ht2⟩
        cases t₁ with
        | nil => simp at ht2
        | cons d ds =>
          obtain ⟨hdc, hds⟩ := List.cons_prefix_cons.mp ht1
          subst hdc
          simp only [List.map_cons, List.cons.injEq] at ht2
          exact ⟨ht2.1.symm, ds, hds, ht2.2⟩

theorem likeM_substring_iff (p t : List Char) (hw : noWild p = true) :
    (likeM ('%' :: (p ++ ['%'])) t = true ↔
      (p.map Char.toLower) <:+: (t.map Char.toLower)) := by
  rw [likeM_pct_iff]
  constructor
  · rintro ⟨t₂, ⟨a, ha⟩, h3⟩
    obtain ⟨t₁, ⟨b, hb⟩, hmap⟩ := (likeM_tailpct_iff p hw t₂).mp h3
    refine ⟨a.map Char.toLower, b.map Char.toLower, ?_⟩
    rw [← ha, ← hb]
    simp [hmap, List.append_assoc]
  · rintro ⟨x, y, hxy⟩
    refine ⟨t.drop x.length, List.drop_suffix x.length t, ?_⟩
    rw [likeM_tailpct_iff p hw]
    refine ⟨(t.drop x.length).take p.length, List.take_prefix _ _, ?_⟩
    have hdrop : (t.drop x.length).map Char.toLower = p.map Char.toLower ++ y := by
      rw [List.map_drop, ← hxy, List.append_assoc, List.drop_left]
    rw [List.map_take, hdrop]
    exact List.take_left' (by simp)

/-! ## Permutation facts about the chunked query -/

theorem filter_or_perm {β : Type} (p q : β → Bool) :
    ∀ (J : List β), (∀ x ∈ J, ¬(p x = true ∧ q x = true)) →
      (J.filter p ++ J.filter q).Perm (J.filter fun x => p x || q x) := by
  intro J
  induction J with
  | nil => intro _; simp
  | cons a J ih =>
    intro h
    have ha := h a (List.mem_cons_self a J)
    have h' : ∀ x ∈ J, ¬(p x = true ∧ q x = true) :=
      fun x hx => h x (List.mem_cons_of_mem a hx)
    rcases hp : p a <;> rcases hq : q a
    · simp only [List.filter_cons, hp, hq, Bool.false_or]
      exact ih h'
    · simp only [List.filter_cons, hp, hq, Bool.false_or]
      exact (List.perm_middle).trans ((ih h').cons a)
    · simp only [List.filter_cons, hp, hq, Bool.true_or, List.cons_append]
      exact (ih h').cons a
    · exact absurd ⟨hp, hq⟩ ha

theorem perm_chunked {β : Type} (J : List β) (col : β → String) :
    ∀ (chunks : List (List String)), chunks.Pairwise List.Disjoint →
      ((chunks.map fun ch => J.filter fun x => decide (col x ∈ ch)).flatten).Perm
        (J.filter fun x => decide (col x ∈ chunks.flatten)) := by
  intro chunks
  induction chunks with
  | nil =>
    intro _
    simp only [List.map_nil, List.flatten_nil, List.flatten_nil]
    have : (J.filter fun x => decide (col x ∈ ([] : List String))) = [] := by
      simp
    rw [this]
  | cons ch chs ih =>
    intro hpw
    rw [List.pairwise_cons] at hpw
    obtain ⟨hd, htl⟩ := hpw
    simp only [List.map_cons, List.flatten_cons]
    have step1 := (ih htl).append_left (J.filter fun x => decide (col x ∈ ch))
    have hdisj : ∀ x ∈ J, ¬((decide (col x ∈ ch) : Bool) = true ∧
        (decide (col x ∈ chs.flatten) : Bool) = true) := by
      intro x _ ⟨h1, h2⟩
      rw [decide_eq_true_eq] at h1 h2
      obtain ⟨l, hl, hxl⟩ := List.mem_flatten.mp h2
      exact hd l hl h1 hxl
    have step2 := filter_or_perm (fun x => decide (col x ∈ ch))
      (fun x => decide (col x ∈ chs.flatten)) J hdisj
    refine (step1.trans step2).trans ?_
    have : (J.filter fun x =>
        (decide (col x ∈ ch) || decide (col x ∈ chs.flatten) : Bool))
        = (J.filter fun x => decide (col x ∈ (ch :: chs).flatten)) := by
      apply List.filter_congr
      intro x _
      simp [List.mem_append]
    rw [this]
    simp only [List.flatten_cons]
    exact List.Perm.refl _

/-! ## Step lemmas for the column loop -/

theorem processColumns_parse_fail (s : Session) (acc : String)
    (data : List (List Cell)) (ft : String) (col : Nat) (rest : List Nat)
    (cleaned : String)
    (h1 : prep_date (headerCell data col) = some cleaned)
    (h2 : cleaned ≠ "")
    (h3 : dateutil_parse cleaned = none) :
    processColumns s acc data ft (col :: rest) = (false, s.rollback) := by
  simp only [processColumns, h1, if_neg h2, h3]

theorem processColumns_flush_fail (s : Session) (acc : String)
    (data : List (List Cell)) (ft : String) (col : Nat) (rest : List Nat)
    (cleaned : String) (ymd : Nat × Nat × Nat)
    (h1 : prep_date (headerCell data col) = some cleaned)
    (h2 : cleaned ≠ "")
    (h3 : dateutil_parse cleaned = some ymd)
    (h4 : flushRows s.pending (rowsToInsert data acc col (formatYYYYMMDD ymd) ft) = none) :
    processColumns s acc data ft (col :: rest) = (false, s.rollback) := by
  simp only [processColumns, h1, if_neg h2, h3, h4]

theorem processColumns_step (s : Session) (acc : String)
    (data : List (List Cell)) (ft : String) (col : Nat) (rest : List Nat)
    (cleaned : String) (ymd : Nat × Nat × Nat) (db1 : DBState)
    (h1 : prep_date (headerCell data col) = some cleaned)
    (h2 : cleaned ≠ "")
    (h3 : dateutil_parse cleaned = some ymd)
    (h4 : flushRows s.pending (rowsToInsert data acc col (formatYYYYMMDD ymd) ft) = some db1) :
    processColumns s acc data ft (col :: rest) =
      processColumns (Session.commit ⟨s.committed, setParsedFlag db1 acc⟩) acc data ft rest := by
  simp only [processColumns, h1, if_neg h2, h3, h4]

theorem set_filing_data_first_col (s : Session) (pair : FilingInfo × CompanyInfo)
    (data : List (List Cell)) (ft : String) (h : 2 ≤ shape1 data) :
    set_filing_data s pair data ft =
      processColumns s pair.1.filing_accession data ft
        (1 :: List.range' 2 (shape1 data - 2)) := by
  have hn : shape1 data - 1 = (shape1 data - 2) + 1 := by omega
  rw [set_filing_data, hn, List.range'_succ]

/-! ## Concrete fixtures -/

set_option maxRecDepth 100000

/-- The empty database. -/
def emptyDB : DBState := ⟨[], [], [], []⟩

/-- `Company(cik="0001", name="Acme")`. -/
def companyAcme : CompanyInfo := ⟨"0001", "Acme", "", "", "", false⟩

/-- `Filing(accession="A1", company_cik="0001")`. -/
def filingA1 : FilingInfo := ⟨"0001", "A1", "", 0, 0, "", "", "", false, false⟩

/-- A fresh session over the database obtained by inserting `companyAcme`
and `filingA1` in a session and closing it. -/
def sessionA1 : Session :=
  Session.make ((((Session.make emptyDB).add_companies [companyAcme]).add_filings
    [filingA1]).close_session).committed

/-- Spreadsheet with header `["Item", "USD ($) Dec. 31, 2020"]` and one data
row `["Revenue", "100"]`. -/
def sheetC7 : List (List Cell) :=
  [[Cell.str "Item", Cell.str "USD ($) Dec. 31, 2020"],
   [Cell.str "Revenue", Cell.str "100"]]

/-- Two data columns: the first has a parseable header, the second an
unparseable one. -/
def sheetC1 : List (List Cell) :=
  [[Cell.str "Item", Cell.str "Dec. 31, 2020", Cell.str "garbage"],
   [Cell.str "Revenue", Cell.str "100", Cell.str "100"]]

/-- One data column whose single data row has an empty trailing value cell. -/
def sheetC2 : List (List Cell) :=
  [[Cell.str "Item", Cell.str "Dec. 31, 2020"],
   [Cell.str "Revenue", Cell.str ""]]

/-- A session whose database already contains the data point that ingesting
`sheetC7` would construct, so flushing it violates the composite primary
key. -/
def sessionDup : Session :=
  Session.make ⟨[], [companyAcme], [filingA1],
    [⟨"A1", Cell.str "Revenue", "10-K", Cell.str "100", "20201231"⟩]⟩

/-- One company/filing pair whose cik is the single match value `"X"`. -/
def dbX : DBState :=
  ⟨[], [⟨"X", "n", "", "", "", false⟩], [⟨"X", "ACC", "", 0, 0, "", "", "", false, false⟩], []⟩

/-- The query column of `select_filings_by_ciks`. -/
def colCik (fc : FilingInfo × CompanyInfo) : String := fc.2.company_cik

/-- 1000 copies of the match value `"X"`: longer than 999, with duplicates
spanning the two chunks. -/
def terms1000 : List String := List.replicate 1000 "X"

/-- Exactly 999 copies of the match value `"X"`. -/
def terms999 : List String := List.replicate 999 "X"

/-- 1000 pairwise-distinct strings. -/
def termsDistinct : List String :=
  (List.range 1000).map fun n => String.mk (List.replicate n 'a')

/-- One company whose state is the lowercase `"ny"`. -/
def dbNY : DBState :=
  ⟨[], [⟨"77", "Acme Corp", "TCK", "7372", "ny", false⟩], [], []⟩

/-! ## Claims -/

/-- Claim C1, as stated, is false: with two data columns, the first column
is committed before the second column's header fails to parse, so the call
returns false and yet a data-point row written by this very call persists
in the committed state — "no partial rows from that call persist" fails. -/
theorem C1_counterexample :
    (set_filing_data sessionA1 (filingA1, companyAcme) sheetC1 "10-K").1 = false ∧
    (set_filing_data sessionA1 (filingA1, companyAcme) sheetC1 "10-K").2.committed.filingData =
      [{ filing_accession := "A1", filing_term := Cell.str "Revenue", filing_type := "10-K",
         filing_value := Cell.str "100", value_period := "20201231" }] := by
  decide

/-- Claim C1 (amended): when a data column's cleaned header fails to parse
as a calendar date, the session's pending (uncommitted) changes are rolled
back and the call returns false; rows already committed for earlier columns
of the same call persist.  Stated for a failure at the first data column,
over an arbitrary session. -/
theorem C1_parse_failure_rolls_back (s : Session) (pair : FilingInfo × CompanyInfo)
    (data : List (List Cell)) (ft : String) (cleaned : String)
    (hcols : 2 ≤ shape1 data)
    (h1 : prep_date (headerCell data 1) = some cleaned)
    (h2 : cleaned ≠ "")
    (h3 : dateutil_parse cleaned = none) :
    set_filing_data s pair data ft = (false, s.rollback) := by
  rw [set_filing_data_first_col s pair data ft hcols]
  exact processColumns_parse_fail s pair.1.filing_accession data ft 1 _ cleaned h1 h2 h3

/-- Witness for C1: a sheet whose only data column has the unparseable
header `"garbage"`, at an arbitrary concrete session. -/
theorem C1_witness :
    set_filing_data sessionA1 (filingA1, companyAcme)
      [[Cell.str "Item", Cell.str "garbage"], [Cell.str "Revenue", Cell.str "100"]] "10-K"
      = (false, sessionA1.rollback) :=
  C1_parse_failure_rolls_back sessionA1 (filingA1, companyAcme)
    [[Cell.str "Item", Cell.str "garbage"], [Cell.str "Revenue", Cell.str "100"]] "10-K"
    "garbage" (by decide) (by decide) (by decide) (by decide)

/-- Claim C2, as stated, is false: a data column whose every data row has a
blank trailing value cell commits the parsed flag as true while committing
no data-point rows at all — the committed batch is empty, so the flag is
set without a non-empty batch. -/
theorem C2_counterexample :
    (set_filing_data sessionA1 (filingA1, companyAcme) sheetC2 "10-K").1 = true ∧
    (set_filing_data sessionA1 (filingA1, companyAcme) sheetC2 "10-K").2.committed.filingData
      = [] ∧
    (set_filing_data sessionA1 (filingA1, companyAcme) sheetC2 "10-K").2.committed.filings
      = [{ filingA1 with parsed_data := true }] := by
  decide

/-- Claim C2 (amended): the parsed flag is committed true only together
with the batch of data-point rows constructed for that column, in the same
commit — but the batch may be empty when every data row's trailing value
cell is blank.  For a successful single-data-column call, the final
committed state is exactly the pending state extended by the column's
constructed rows, with the flag set for the filing's accession. -/
theorem C2_flag_committed_with_batch (s : Session) (pair : FilingInfo × CompanyInfo)
    (data : List (List Cell)) (ft : String) (cleaned : String)
    (ymd : Nat × Nat × Nat) (db1 : DBState)
    (hcols : shape1 data = 2)
    (h1 : prep_date (headerCell data 1) = some cleaned)
    (h2 : cleaned ≠ "")
    (h3 : dateutil_parse cleaned = some ymd)
    (h4 : flushRows s.pending
      (rowsToInsert data pair.1.filing_accession 1 (formatYYYYMMDD ymd) ft) = some db1) :
    set_filing_data s pair data ft =
      (true, Session.commit ⟨s.committed, setParsedFlag db1 pair.1.filing_accession⟩) ∧
    db1.filingData = s.pending.filingData ++
      rowsToInsert data pair.1.filing_accession 1 (formatYYYYMMDD ymd) ft := by
  constructor
  · rw [set_filing_data_first_col s pair data ft (by omega)]
    rw [processColumns_step s pair.1.filing_accession data ft 1 _ cleaned ymd db1 h1 h2 h3 h4]
    have : shape1 data - 2 = 0 := by omega
    rw [this, List.range'_zero]
    rfl
  · have := flushRows_eq _ _ _ h4
    rw [this]

/-- The database state after flushing the single constructed row of
`sheetC7` into `sessionA1`'s pending state. -/
def dbC2w : DBState :=
  ⟨[], [companyAcme], [filingA1],
   [⟨"A1", Cell.str "Revenue", "10-K", Cell.str "100", "20201231"⟩]⟩

/-- Witness for C2: the successful ingestion of `sheetC7`. -/
theorem C2_witness :
    set_filing_data sessionA1 (filingA1, companyAcme) sheetC7 "10-K" =
      (true, Session.commit ⟨sessionA1.committed,
        setParsedFlag dbC2w (filingA1, companyAcme).1.filing_accession⟩) ∧
    dbC2w.filingData = sessionA1.pending.filingData ++
      rowsToInsert sheetC7 (filingA1, companyAcme).1.filing_accession 1
        (formatYYYYMMDD (2020, 12, 31)) "10-K" :=
  C2_flag_committed_with_batch sessionA1 (filingA1, companyAcme) sheetC7 "10-K"
    " Dec. 31, 2020" (2020, 12, 31) dbC2w (by decide) (by decide) (by decide)
    (by decide) (by decide)

/-- Claim C3: a uniqueness violation while flushing a column's constructed
records is caught, rolls the session back, and makes the call return false
(no exception escapes: the routine totally returns a boolean and a session).
Stated for a violation at the first data column, over an arbitrary
session. -/
theorem C3_integrity_violation_rolls_back (s : Session) (pair : FilingInfo × CompanyInfo)
    (data : List (List Cell)) (ft : String) (cleaned : String) (ymd : Nat × Nat × Nat)
    (hcols : 2 ≤ shape1 data)
    (h1 : prep_date (headerCell data 1) = some cleaned)
    (h2 : cleaned ≠ "")
    (h3 : dateutil_parse cleaned = some ymd)
    (h4 : flushRows s.pending
      (rowsToInsert data pair.1.filing_accession 1 (formatYYYYMMDD ymd) ft) = none) :
    set_filing_data s pair data ft = (false, s.rollback) := by
  rw [set_filing_data_first_col s pair data ft hcols]
  exact processColumns_flush_fail s pair.1.filing_accession data ft 1 _ cleaned ymd h1 h2 h3 h4

/-- Witness for C3: re-ingesting `sheetC7` into a database that already
holds the identical data point duplicates the composite primary key. -/
theorem C3_witness :
    set_filing_data sessionDup (filingA1, companyAcme) sheetC7 "10-K"
      = (false, sessionDup.rollback) :=
  C3_integrity_violation_rolls_back sessionDup (filingA1, companyAcme) sheetC7 "10-K"
    " Dec. 31, 2020" (2020, 12, 31) (by decide) (by decide) (by decide) (by decide)
    (by decide)

/-- Claim C10: a call on a spreadsheet with exactly one column (only the
term-name column) returns true, constructs no data points, and leaves the
session — including the filing's parsed flag — untouched. -/
theorem C10_single_column (s : Session) (pair : FilingInfo × CompanyInfo)
    (data : List (List Cell)) (ft : String) (h : shape1 data = 1) :
    set_filing_data s pair data ft = (true, s) := by
  rw [set_filing_data, h]
  rfl

/-- Witness for C10: a one-column sheet. -/
theorem C10_witness :
    set_filing_data sessionA1 (filingA1, companyAcme)
      [[Cell.str "Item"], [Cell.str "Revenue"]] "10-K" = (true, sessionA1) :=
  C10_single_column sessionA1 (filingA1, companyAcme)
    [[Cell.str "Item"], [Cell.str "Revenue"]] "10-K" (by decide)

/-- Claim C7: the end-to-end scenario.  After inserting
`Company(cik="0001", name="Acme")` and `Filing(accession="A1")`, ingesting
the spreadsheet `sheetC7` succeeds and yields exactly one data point with
accession `"A1"`, term `"Revenue"`, value `"100"` (the raw cell, stored by
sqlite in the Float column as 100), period `"20201231"`, and the filing's
parsed flag is true. -/
theorem C7_end_to_end :
    (set_filing_data sessionA1 (filingA1, companyAcme) sheetC7 "10-K").1 = true ∧
    (set_filing_data sessionA1 (filingA1, companyAcme) sheetC7 "10-K").2.committed.filingData =
      [{ filing_accession := "A1", filing_term := Cell.str "Revenue", filing_type := "10-K",
         filing_value := Cell.str "100", value_period := "20201231" }] ∧
    (set_filing_data sessionA1 (filingA1, companyAcme) sheetC7 "10-K").2.committed.filings =
      [{ filingA1 with parsed_data := true }] := by
  decide

/-- Claim C4, as stated, is false: with 1000 copies of the same match
value, the matching row is returned once per chunk containing the value —
twice in all — while the unchunked reference query returns it once, so the
chunked result is not multiset-equal to the unchunked one. -/
theorem C4_counterexample :
    terms1000.length = 1000 ∧
    (selectFilings dbX colCik terms1000).length = 2 ∧
    (filterJoinQuery dbX colCik terms1000).length = 1 ∧
    ¬ List.Perm (selectFilings dbX colCik terms1000) (filterJoinQuery dbX colCik terms1000) := by
  refine ⟨by decide, by decide, by decide, fun h => ?_⟩
  have hlen := h.length_eq
  have h1 : (selectFilings dbX colCik terms1000).length = 2 := by decide
  have h2 : (filterJoinQuery dbX colCik terms1000).length = 1 := by decide
  omega

/-- Claim C4 (amended): for an input list longer than 999 whose match
values are pairwise distinct, the chunked filtered join query returns, as a
multiset, exactly what the single unchunked query over the whole list
returns. -/
theorem C4_chunked_query_perm_of_nodup (db : DBState)
    (col : FilingInfo × CompanyInfo → String) (terms : List String)
    (hlen : 999 < terms.length) (hnd : terms.Nodup) :
    List.Perm (selectFilings db col terms) (filterJoinQuery db col terms) := by
  rw [selectFilings, if_neg (by omega)]
  have hj : (chunksOf995 terms).flatten = terms := chunksOf995_flatten terms
  have hnodup : ((chunksOf995 terms).flatten).Nodup := by rw [hj]; exact hnd
  have hpw := (List.nodup_flatten.mp hnodup).2
  have h := perm_chunked (joinFilingsCompanies db) col (chunksOf995 terms) hpw
  rw [hj] at h
  simp only [flatten, filterJoinQuery]
  exact h

/-- Witness for C4: 1000 pairwise-distinct match values. -/
theorem C4_witness :
    999 < termsDistinct.length ∧ termsDistinct.Nodup ∧
    List.Perm (selectFilings dbX colCik termsDistinct)
      (filterJoinQuery dbX colCik termsDistinct) := by
  have hinj : Function.Injective fun n => String.mk (List.replicate n 'a') := by
    intro m n h
    have hd := congrArg String.data h
    have hlen := congrArg List.length hd
    simpa using hlen
  have hnd : termsDistinct.Nodup := List.Nodup.map hinj (List.nodup_range 1000)
  have hlen : termsDistinct.length = 1000 := by simp [termsDistinct]
  exact ⟨by omega, hnd,
    C4_chunked_query_perm_of_nodup dbX colCik termsDistinct (by omega) hnd⟩

/-- Claim C5, as stated, is false: an input of exactly 999 elements (which
is "at most 999") is nevertheless split into chunks, observably — with 999
copies of one value, the result differs from the single unchunked query. -/
theorem C5_counterexample :
    terms999.length = 999 ∧
    selectFilings dbX colCik terms999 ≠ filterJoinQuery dbX colCik terms999 ∧
    (selectFilings dbX colCik terms999).length = 2 ∧
    (filterJoinQuery dbX colCik terms999).length = 1 := by
  decide

/-- Claim C5 (amended): the filtered join query runs as a single query
exactly when the input has fewer than 999 elements; inputs of length 999 or
more are split into chunks of at most 995 whose flattening-in-chunk-order
is the whole input, and the result is the concatenation of the per-chunk
queries in chunk order. -/
theorem C5_chunk_boundary (db : DBState) (col : FilingInfo × CompanyInfo → String)
    (terms : List String) :
    (terms.length < 999 → selectFilings db col terms = filterJoinQuery db col terms) ∧
    (999 ≤ terms.length →
      (chunksOf995 terms).flatten = terms ∧
      (∀ ch ∈ chunksOf995 terms, ch.length ≤ 995) ∧
      selectFilings db col terms =
        flatten ((chunksOf995 terms).map fun chunk => filterJoinQuery db col chunk)) := by
  constructor
  · intro h
    rw [selectFilings, if_pos h]
  · intro h
    exact ⟨chunksOf995_flatten terms, chunksOf995_sizes terms,
      by rw [selectFilings, if_neg (by omega)]⟩

/-- Witness for C5: a one-element input runs unchunked; a 999-element input
is the concatenation of its per-chunk queries. -/
theorem C5_witness :
    selectFilings dbX colCik ["X"] = filterJoinQuery dbX colCik ["X"] ∧
    selectFilings dbX colCik terms999 =
      flatten ((chunksOf995 terms999).map fun chunk => filterJoinQuery dbX colCik chunk) :=
  ⟨(C5_chunk_boundary dbX colCik ["X"]).1 (by decide),
   ((C5_chunk_boundary dbX colCik terms999).2 (by decide)).2.2⟩

/-- Claim C6: per column, a data row with an empty/falsy trailing cell is
excluded from the constructed records, and every row with a truthy trailing
cell yields exactly one record whose value is the row's cell at the current
column index; conversely every constructed record arises that way. -/
theorem C6_row_selection (data : List (List Cell)) (accession : String)
    (column_num : Nat) (period : String) (ft : String) :
    rowsToInsert data accession column_num period ft =
      ((data.drop 1).filter fun row => (lastCell row).truthy).map
        (fun row =>
          { filing_accession := accession, filing_term := row.getD 0 Cell.none_,
            filing_type := ft, filing_value := row.getD column_num Cell.none_,
            value_period := period }) ∧
    ∀ rec ∈ rowsToInsert data accession column_num period ft,
      ∃ row, row ∈ data.drop 1 ∧ (lastCell row).truthy = true ∧
        rec.filing_value = row.getD column_num Cell.none_ ∧
        rec.filing_term = row.getD 0 Cell.none_ ∧
        rec.filing_accession = accession ∧ rec.value_period = period := by
  constructor
  · rw [rowsToInsert]
    exact filterMap_if _ _ _
  · intro rec hrec
    rw [rowsToInsert, filterMap_if] at hrec
    obtain ⟨row, hrowf, hrfl⟩ := List.mem_map.mp hrec
    obtain ⟨hrowmem, hptrue⟩ := List.mem_filter.mp hrowf
    exact ⟨row, hrowmem, hptrue, by rw [← hrfl], by rw [← hrfl], by rw [← hrfl],
      by rw [← hrfl]⟩

/-- Witness for C6: the record constructed from the surviving data row of
`sheetC1` at column 1. -/
theorem C6_witness :
    ∃ row, row ∈ sheetC1.drop 1 ∧ (lastCell row).truthy = true ∧
      (⟨"A1", Cell.str "Revenue", "10-K", Cell.str "100", "20201231"⟩ :
        FilingData).filing_value = row.getD 1 Cell.none_ ∧
      (⟨"A1", Cell.str "Revenue", "10-K", Cell.str "100", "20201231"⟩ :
        FilingData).filing_term = row.getD 0 Cell.none_ ∧
      (⟨"A1", Cell.str "Revenue", "10-K", Cell.str "100", "20201231"⟩ :
        FilingData).filing_accession = "A1" ∧
      (⟨"A1", Cell.str "Revenue", "10-K", Cell.str "100", "20201231"⟩ :
        FilingData).value_period = "20201231" :=
  (C6_row_selection sheetC1 "A1" 1 "20201231" "10-K").2
    ⟨"A1", Cell.str "Revenue", "10-K", Cell.str "100", "20201231"⟩ (by decide)

/-! ## C8/C9: the distinct-cik lookups -/

/-- The result policy of `_select_distinct_ciks`: `none` (process exit) on
an empty list, otherwise the list. -/
def resultify (l : List String) : Option (List String) :=
  if l.isEmpty then none else some l

/-- Case-insensitive equality of two strings. -/
def eqIC (a b : String) : Bool :=
  a.data.map Char.toLower == b.data.map Char.toLower

/-- Case-insensitive substring test: the needle's lowercasing occurs inside
the haystack's lowercasing. -/
def substrIC (needle hay : String) : Bool :=
  decide ((needle.data.map Char.toLower) <:+: (hay.data.map Char.toLower))

/-- Claim C8, as stated, is false: the state lookup is not an exact match —
the stored state `"ny"` differs from the query term `"NY"`, yet the company
is returned, because all four lookups go through `ilike`; an exact-match
reference returns nothing here. -/
theorem C8_counterexample :
    select_ciks_by_state dbNY "NY" = some ["77"] ∧
    dbNY.companies.all (fun c => c.company_state != "NY") = true ∧
    resultify ((dbNY.companies.filter fun c => c.company_state == "NY").map
      fun c => c.company_cik) = none := by
  decide

/-- Claim C8 (amended): for a query term with no SQL wildcard characters,
the state, industry-code and ticker lookups match their column
case-insensitively (not exactly), and the name lookup matches companies
whose lowercased name contains the lowercased term as a substring; each
returns the cik values of the matching companies, `none` (process exit)
when there are none. -/
theorem C8_ilike_semantics (db : DBState) (t : String) (hw : noWild t.data = true) :
    select_ciks_by_state db t =
      resultify ((db.companies.filter fun c => eqIC c.company_state t).map
        fun c => c.company_cik) ∧
    select_ciks_by_sic db t =
      resultify ((db.companies.filter fun c => eqIC c.company_sic t).map
        fun c => c.company_cik) ∧
    select_ciks_by_ticker db t =
      resultify ((db.companies.filter fun c => eqIC c.company_ticker t).map
        fun c => c.company_cik) ∧
    select_ciks_by_name db t =
      resultify ((db.companies.filter fun c => substrIC t c.company_name).map
        fun c => c.company_cik) := by
  have hexact : ∀ col : CompanyInfo → String,
      (db.companies.filter fun c => likeS (col c) t) =
        (db.companies.filter fun c => eqIC (col c) t) := by
    intro col
    apply List.filter_congr
    intro c _
    apply bool_ext
    rw [likeS, likeM_noWild t.data (col c).data hw, eqIC]
    simp [beq_iff_eq]
  have hdata : ("%" ++ t ++ "%").data = '%' :: (t.data ++ ['%']) := by
    rw [String.data_append, String.data_append]
    simp
  have hname : (db.companies.filter fun c => likeS c.company_name ("%" ++ t ++ "%")) =
      (db.companies.filter fun c => substrIC t c.company_name) := by
    apply List.filter_congr
    intro c _
    apply bool_ext
    rw [likeS, hdata, likeM_substring_iff t.data c.company_name.data hw, substrIC,
      decide_eq_true_eq]
  refine ⟨?_, ?_, ?_, ?_⟩
  · simp only [select_ciks_by_state, selectDistinctCiks, resultify]
    rw [hexact fun c => c.company_state]
  · simp only [select_ciks_by_sic, selectDistinctCiks, resultify]
    rw [hexact fun c => c.company_sic]
  · simp only [select_ciks_by_ticker, selectDistinctCiks, resultify]
    rw [hexact fun c => c.company_ticker]
  · simp only [select_ciks_by_name, selectDistinctCiks, resultify]
    rw [hname]

/-- Witness for C8: the wildcard-free term `"ny"` against `dbNY`. -/
theorem C8_witness :
    select_ciks_by_state dbNY "ny" =
      resultify ((dbNY.companies.filter fun c => eqIC c.company_state "ny").map
        fun c => c.company_cik) :=
  (C8_ilike_semantics dbNY "ny" (by decide)).1

/-- Claim C9: a distinct-cik lookup whose query matches no row never hands
an empty list back to the caller — it exits the process (modelled as
`none`); and any list it does return is non-empty.  All four lookup
wrappers delegate to `selectDistinctCiks`, which this covers for every
column selector. -/
theorem C9_no_match_exits (db : DBState) (col : CompanyInfo → String) (term : String) :
    ((∀ c ∈ db.companies, likeS (col c) term = false) →
      selectDistinctCiks db col term = none) ∧
    ∀ l, selectDistinctCiks db col term = some l → l ≠ [] := by
  constructor
  · intro h
    have hfil : db.companies.filter (fun c => likeS (col c) term) = [] := by
      rw [List.filter_eq_nil_iff]
      intro c hc
      simp [h c hc]
    simp [selectDistinctCiks, hfil]
  · intro l hl
    simp only [selectDistinctCiks] at hl
    split at hl
    · exact absurd hl (by simp)
    · intro hnil
      rw [Option.some_inj] at hl
      rw [← hl] at hnil
      simp_all

/-- Witness for C9: a lookup over an empty company table exits. -/
theorem C9_witness :
    selectDistinctCiks emptyDB (fun c => c.company_state) "zz" = none :=
  (C9_no_match_exits emptyDB (fun c => c.company_state) "zz").1
    (by intro c hc; simp [emptyDB] at hc)

end Secparse
